import Mathlib

set_option maxHeartbeats 1000000

namespace Boundary

/-!
Verification development for the encrypted credential storage engine of
hashicorp/boundary (static credential store) and its configuration loader.

The persisted schema is embedded from
`internal/proto/controller/storage/credential/static/store/v1/static.proto`;
the `persisted` flag of each field mirrors the gorm inject tags of the proto
source (`gorm:"-"` marks a transient, never-persisted field).  The engine
operations themselves (Envelope Codec, Credential Entity Manager, Credential
Store Registry, Key Rotation Coordinator) are not part of the visible source
and are modelled from the specification where needed; such definitions carry
a doc comment starting with `Modelled from the spec:`.
-/

/-- Scalar type of a proto field, as written in the proto source. -/
inductive FieldType
  | str
  | bytes
  | ts
  | u32
deriving DecidableEq

/-- One field of a proto message: its wire name, its field number, its type,
and whether it is part of the persisted representation (`persisted := false`
exactly for the fields whose gorm inject tag is `-`). -/
structure ProtoField where
  name : String
  number : Nat
  ftype : FieldType
  persisted : Bool
deriving DecidableEq

/-- Fields of message `CredentialStore` in static.proto. -/
def credentialStoreFields : List ProtoField :=
  [ ⟨"public_id", 1, .str, true⟩,
    ⟨"create_time", 2, .ts, true⟩,
    ⟨"update_time", 3, .ts, true⟩,
    ⟨"name", 4, .str, true⟩,
    ⟨"description", 5, .str, true⟩,
    ⟨"project_id", 6, .str, true⟩,
    ⟨"version", 7, .u32, true⟩ ]

/-- Fields of message `UsernamePasswordCredential` in static.proto.
`password` (field 9) carries the gorm tag `-` and is never persisted;
`ct_password` (10), `password_hmac` (11) and `key_id` (12) are the
persisted secret columns. -/
def usernamePasswordCredentialFields : List ProtoField :=
  [ ⟨"public_id", 1, .str, true⟩,
    ⟨"create_time", 2, .ts, true⟩,
    ⟨"update_time", 3, .ts, true⟩,
    ⟨"name", 4, .str, true⟩,
    ⟨"description", 5, .str, true⟩,
    ⟨"store_id", 6, .str, true⟩,
    ⟨"version", 7, .u32, true⟩,
    ⟨"username", 8, .str, true⟩,
    ⟨"password", 9, .bytes, false⟩,
    ⟨"ct_password", 10, .bytes, true⟩,
    ⟨"password_hmac", 11, .bytes, true⟩,
    ⟨"key_id", 12, .str, true⟩ ]

/-- Fields of message `SshPrivateKeyCredential` in static.proto.
`private_key` (9) and `private_key_passphrase` (13) carry the gorm tag `-`
and are never persisted. -/
def sshPrivateKeyCredentialFields : List ProtoField :=
  [ ⟨"public_id", 1, .str, true⟩,
    ⟨"create_time", 2, .ts, true⟩,
    ⟨"update_time", 3, .ts, true⟩,
    ⟨"name", 4, .str, true⟩,
    ⟨"description", 5, .str, true⟩,
    ⟨"store_id", 6, .str, true⟩,
    ⟨"version", 7, .u32, true⟩,
    ⟨"username", 8, .str, true⟩,
    ⟨"private_key", 9, .bytes, false⟩,
    ⟨"private_key_encrypted", 10, .bytes, true⟩,
    ⟨"private_key_hmac", 11, .bytes, true⟩,
    ⟨"key_id", 12, .str, true⟩,
    ⟨"private_key_passphrase", 13, .bytes, false⟩,
    ⟨"private_key_passphrase_encrypted", 14, .bytes, true⟩,
    ⟨"private_key_passphrase_hmac", 15, .bytes, true⟩ ]

/-- Fields of message `JsonCredential` in static.proto.
`object` (field 8) carries the gorm tag `-` and is never persisted. -/
def jsonCredentialFields : List ProtoField :=
  [ ⟨"public_id", 1, .str, true⟩,
    ⟨"create_time", 2, .ts, true⟩,
    ⟨"update_time", 3, .ts, true⟩,
    ⟨"name", 4, .str, true⟩,
    ⟨"description", 5, .str, true⟩,
    ⟨"store_id", 6, .str, true⟩,
    ⟨"version", 7, .u32, true⟩,
    ⟨"object", 8, .bytes, false⟩,
    ⟨"object_encrypted", 9, .bytes, true⟩,
    ⟨"object_hmac", 10, .bytes, true⟩,
    ⟨"key_id", 11, .str, true⟩ ]

/-- The persisted subset of a proto message's fields. -/
def persistedFields (fs : List ProtoField) : List ProtoField :=
  fs.filter (·.persisted)

/-- Spec table (§6) for CredentialStore, written from the spec's words. -/
def specCredentialStoreTable : List (String × Nat) :=
  [ ("public_id", 1), ("create_time", 2), ("update_time", 3), ("name", 4),
    ("description", 5), ("project_id", 6), ("version", 7) ]

/-- Spec table (§6) for UsernamePasswordCredential, written from the spec's words. -/
def specUsernamePasswordTable : List (String × Nat) :=
  [ ("public_id", 1), ("create_time", 2), ("update_time", 3), ("name", 4),
    ("description", 5), ("store_id", 6), ("version", 7), ("username", 8),
    ("password", 9), ("ct_password", 10), ("password_hmac", 11), ("key_id", 12) ]

/-- Spec table (§6) for SshPrivateKeyCredential, written from the spec's words. -/
def specSshPrivateKeyTable : List (String × Nat) :=
  [ ("public_id", 1), ("create_time", 2), ("update_time", 3), ("name", 4),
    ("description", 5), ("store_id", 6), ("version", 7), ("username", 8),
    ("private_key", 9), ("private_key_encrypted", 10), ("private_key_hmac", 11),
    ("key_id", 12), ("private_key_passphrase", 13),
    ("private_key_passphrase_encrypted", 14), ("private_key_passphrase_hmac", 15) ]

/-- Spec table (§6) for JsonCredential, written from the spec's words. -/
def specJsonTable : List (String × Nat) :=
  [ ("public_id", 1), ("create_time", 2), ("update_time", 3), ("name", 4),
    ("description", 5), ("store_id", 6), ("version", 7), ("object", 8),
    ("object_encrypted", 9), ("object_hmac", 10), ("key_id", 11) ]

/-- Wire name and number of a proto field. -/
def wirePair (f : ProtoField) : String × Nat := (f.name, f.number)

/-- The `UsernamePasswordCredential` message of static.proto as a record.
`password` is the transient plaintext (gorm tag `-`); timestamps are
abstracted to naturals; `name`/`description` are nullable columns. -/
structure UsernamePasswordCredential where
  public_id : String
  create_time : Nat
  update_time : Nat
  name : Option String
  description : Option String
  store_id : String
  version : Nat
  username : String
  password : List Nat
  ct_password : List Nat
  password_hmac : List Nat
  key_id : String
deriving DecidableEq

/-- The `SshPrivateKeyCredential` message of static.proto as a record.
`private_key` and `private_key_passphrase` are the transient plaintexts. -/
structure SshPrivateKeyCredential where
  public_id : String
  create_time : Nat
  update_time : Nat
  name : Option String
  description : Option String
  store_id : String
  version : Nat
  username : String
  private_key : List Nat
  private_key_encrypted : List Nat
  private_key_hmac : List Nat
  key_id : String
  private_key_passphrase : List Nat
  private_key_passphrase_encrypted : List Nat
  private_key_passphrase_hmac : List Nat
deriving DecidableEq

/-- The `JsonCredential` message of static.proto as a record.
`object` is the transient plaintext. -/
structure JsonCredential where
  public_id : String
  create_time : Nat
  update_time : Nat
  name : Option String
  description : Option String
  store_id : String
  version : Nat
  object : List Nat
  object_encrypted : List Nat
  object_hmac : List Nat
  key_id : String
deriving DecidableEq

/-- Value of a persisted column. -/
inductive FieldVal
  | str (s : String)
  | bytes (b : List Nat)
  | ts (t : Nat)
  | u32 (n : Nat)
  | optStr (s : Option String)
deriving DecidableEq

/-- Persisted representation of a UsernamePasswordCredential: exactly the
columns whose gorm tag is not `-`, keyed by proto field number.  This is
also what a read without decryption returns. -/
def UsernamePasswordCredential.persistedRepr (c : UsernamePasswordCredential) :
    List (Nat × FieldVal) :=
  [ (1, .str c.public_id), (2, .ts c.create_time), (3, .ts c.update_time),
    (4, .optStr c.name), (5, .optStr c.description), (6, .str c.store_id),
    (7, .u32 c.version), (8, .str c.username),
    (10, .bytes c.ct_password), (11, .bytes c.password_hmac), (12, .str c.key_id) ]

/-- Persisted representation of an SshPrivateKeyCredential. -/
def SshPrivateKeyCredential.persistedRepr (c : SshPrivateKeyCredential) :
    List (Nat × FieldVal) :=
  [ (1, .str c.public_id), (2, .ts c.create_time), (3, .ts c.update_time),
    (4, .optStr c.name), (5, .optStr c.description), (6, .str c.store_id),
    (7, .u32 c.version), (8, .str c.username),
    (10, .bytes c.private_key_encrypted), (11, .bytes c.private_key_hmac),
    (12, .str c.key_id),
    (14, .bytes c.private_key_passphrase_encrypted),
    (15, .bytes c.private_key_passphrase_hmac) ]

/-- Persisted representation of a JsonCredential. -/
def JsonCredential.persistedRepr (c : JsonCredential) :
    List (Nat × FieldVal) :=
  [ (1, .str c.public_id), (2, .ts c.create_time), (3, .ts c.update_time),
    (4, .optStr c.name), (5, .optStr c.description), (6, .str c.store_id),
    (7, .u32 c.version),
    (9, .bytes c.object_encrypted), (10, .bytes c.object_hmac),
    (11, .str c.key_id) ]

/-- Error taxonomy of the engine (spec §7). -/
inductive EngineError
  | validationError
  | conflictError
  | notFoundError
  | encryptionError
  | integrityError
  | duplicateNameError
deriving DecidableEq

/-- Modelled from the spec: the additional authenticated data of §4.1,
constructed deterministically from the owning store id, the credential's
public id, and the field name. -/
structure Aad where
  storeId : String
  credentialPublicId : String
  fieldName : String
deriving DecidableEq

/-- Modelled from the spec: the Wrapper Registry of §4.1, an external
collaborator given by contract only.  Plaintext and ciphertext are byte
sequences; the contract fields record that decrypting what encrypt produced
returns the plaintext, that encrypt binds the id `currentKeyId` reports, and
that the keyed HMAC distinguishes distinct plaintexts (the HMAC determinism
property of §8, which underlies `verifyEquals`). -/
structure WrapperRegistry where
  encrypt : List Nat → Aad → List Nat × String
  decrypt : List Nat → String → Aad → Except EngineError (List Nat)
  currentKeyId : String
  hmacKeyed : String → List Nat → List Nat
  decrypt_encrypt : ∀ p aad, decrypt (encrypt p aad).1 (encrypt p aad).2 aad = .ok p
  encrypt_keyId : ∀ p aad, (encrypt p aad).2 = currentKeyId
  hmacKeyed_inj : ∀ k p q, hmacKeyed k p = hmacKeyed k q → p = q

/-- Modelled from the spec: the persisted triple of one secret field (§4.2). -/
structure SealedField where
  ciphertext : List Nat
  hmac : List Nat
  keyId : String
deriving DecidableEq

/-- Modelled from the spec: `sealField` of the Envelope Codec (§4.2).  Calls the
registry's encrypt and computes the keyed HMAC over the plaintext under the
key material the ciphertext was bound to. -/
def sealField (reg : WrapperRegistry) (p : List Nat) (aad : Aad) : SealedField where
  ciphertext := (reg.encrypt p aad).1
  hmac := reg.hmacKeyed (reg.encrypt p aad).2 p
  keyId := (reg.encrypt p aad).2

/-- Modelled from the spec: `open` of the Envelope Codec (§4.2), named
`openField` because `open` is reserved in Lean.  Decrypts the ciphertext
under the sealed field's key id; the HMAC plays no role in opening. -/
def openField (reg : WrapperRegistry) (sf : SealedField) (aad : Aad) :
    Except EngineError (List Nat) :=
  reg.decrypt sf.ciphertext sf.keyId aad

/-- Modelled from the spec: `verifyEquals` of the Envelope Codec (§4.2),
blind comparison via the keyed HMAC without decryption. -/
def verifyEquals (reg : WrapperRegistry) (sf : SealedField) (candidate : List Nat)
    (_aad : Aad) : Bool :=
  sf.hmac == reg.hmacKeyed sf.keyId candidate

/-- Modelled from the spec: a record under optimistic concurrency (§3).
`version` is a proto uint32; it counts successful mutations and never nears
2^32 in the model, so it is a natural number. -/
structure VersionedRecord (α : Type) where
  version : Nat
  payload : α
deriving DecidableEq

/-- Look up a record by public id in a store table. -/
def lookupRecord {α : Type} (store : List (String × VersionedRecord α))
    (id : String) : Option (VersionedRecord α) :=
  (store.find? (fun e => e.1 == id)).map (·.2)

/-- Modelled from the spec: the `update` operation of §4.3 and the §3
invariant -- load the current row, compare the supplied expected version,
apply the changed fields and bump the version by exactly one on success;
reject with ConflictError on mismatch.  The new store exists only in the
`.ok` result, so a rejected mutation leaves every record unchanged. -/
def updateRecord {α : Type} (store : List (String × VersionedRecord α))
    (id : String) (expectedVersion : Nat) (changedFields : α → α) :
    Except EngineError (List (String × VersionedRecord α)) :=
  match lookupRecord store id with
  | none => .error .notFoundError
  | some r =>
    if expectedVersion = r.version then
      .ok (store.map (fun e =>
        if e.1 == id then (e.1, ⟨r.version + 1, changedFields r.payload⟩)
        else e))
    else .error .conflictError

/-- Metadata of a credential relevant to name uniqueness (§3, §4.3). -/
structure CredMeta where
  public_id : String
  store_id : String
  name : Option String
deriving DecidableEq

/-- Two credentials never share a set name within one store: whenever two
entries sit in the same store and carry the same name, that name is null. -/
def NamesUniquePerStore (creds : List CredMeta) : Prop :=
  creds.Pairwise (fun a b => a.store_id = b.store_id → a.name = b.name → a.name = none)

/-- Distinct entries never share a public id (the id-generation contract of
§6: globally unique publicId values). -/
def IdsUnique (creds : List CredMeta) : Prop :=
  creds.Pairwise (fun a b => a.public_id ≠ b.public_id)

/-- Is some credential of the store already carrying this name? -/
def nameTakenInStore (creds : List CredMeta) (sid : String) (n : String) : Bool :=
  creds.any (fun c => c.store_id == sid && c.name == some n)

/-- Modelled from the spec: `create` of §4.3 restricted to the naming rule --
a set name already carried by a credential of the owning store is rejected
with DuplicateNameError, otherwise the credential is added. -/
def createCred (creds : List CredMeta) (newCred : CredMeta) :
    Except EngineError (List CredMeta) :=
  match newCred.name with
  | some n =>
    if nameTakenInStore creds newCred.store_id n then .error .duplicateNameError
    else .ok (newCred :: creds)
  | none => .ok (newCred :: creds)

/-- Modelled from the spec: the name-changing part of `update` (§4.3) -- a
new set name already carried by another credential of the same store is
rejected with DuplicateNameError. -/
def renameCred (creds : List CredMeta) (id : String) (newName : Option String) :
    Except EngineError (List CredMeta) :=
  match creds.find? (fun c => c.public_id == id) with
  | none => .error .notFoundError
  | some c =>
    match newName with
    | some n =>
      if creds.any (fun c2 =>
          c2.public_id != id && c2.store_id == c.store_id && c2.name == some n) then
        .error .duplicateNameError
      else
        .ok (creds.map (fun c2 =>
          if c2.public_id == id then { c2 with name := newName } else c2))
    | none =>
      .ok (creds.map (fun c2 =>
        if c2.public_id == id then { c2 with name := newName } else c2))

/-- Additional authenticated data of the password field of a
UsernamePasswordCredential (§4.1). -/
def upPasswordAad (c : UsernamePasswordCredential) : Aad :=
  ⟨c.store_id, c.public_id, "password"⟩

/-- Modelled from the spec: the §4.3 update whose changed fields contain
only the password -- the password is resealed under the current active key,
the version bumps by one, the transient plaintext is not retained, and no
other column is touched. -/
def updatePasswordOnly (reg : WrapperRegistry) (c : UsernamePasswordCredential)
    (newPw : List Nat) : UsernamePasswordCredential :=
  { c with
    password := [],
    ct_password := (sealField reg newPw (upPasswordAad c)).ciphertext,
    password_hmac := (sealField reg newPw (upPasswordAad c)).hmac,
    key_id := (sealField reg newPw (upPasswordAad c)).keyId,
    version := c.version + 1 }

/-- The stored secret columns of the record are the seal of `pw` under the
registry's current key (spec §3 invariant 1; no rotation is pending on the
record, matching the spec's field-isolation property). -/
def UPWellFormed (reg : WrapperRegistry) (c : UsernamePasswordCredential)
    (pw : List Nat) : Prop :=
  c.ct_password = (sealField reg pw (upPasswordAad c)).ciphertext ∧
  c.password_hmac = (sealField reg pw (upPasswordAad c)).hmac ∧
  c.key_id = (sealField reg pw (upPasswordAad c)).keyId

/-- Modelled from the spec: a credential row as the Key Rotation Coordinator
sees it -- identity, owning store, and sealed secret fields by name. -/
structure StoredCredential where
  public_id : String
  store_id : String
  fields : List (String × SealedField)
deriving DecidableEq

/-- Additional authenticated data of one named field of a stored credential. -/
def credAad (c : StoredCredential) (fieldName : String) : Aad :=
  ⟨c.store_id, c.public_id, fieldName⟩

/-- Modelled from the spec: rotation of one sealed field (§4.5) -- fields
already under the current key are skipped; a stale field is opened under its
old key id and resealed under the current key. -/
def rotateField (reg : WrapperRegistry) (aad : Aad) (f : SealedField) :
    Except EngineError SealedField :=
  if f.keyId = reg.currentKeyId then .ok f
  else
    match openField reg f aad with
    | .error e => .error e
    | .ok p => .ok (sealField reg p aad)

/-- Rotate every named field of a credential, halting at the first error. -/
def rotateFields (reg : WrapperRegistry) (c : StoredCredential) :
    List (String × SealedField) → Except EngineError (List (String × SealedField))
  | [] => .ok []
  | (n, f) :: rest =>
    match rotateField reg (credAad c n) f with
    | .error e => .error e
    | .ok f' =>
      match rotateFields reg c rest with
      | .error e => .error e
      | .ok rest' => .ok ((n, f') :: rest')

/-- Modelled from the spec: rotation of one credential row (§4.5), replacing
only its sealed fields. -/
def rotateCredential (reg : WrapperRegistry) (c : StoredCredential) :
    Except EngineError StoredCredential :=
  match rotateFields reg c c.fields with
  | .error e => .error e
  | .ok fs => .ok { c with fields := fs }

/-- Modelled from the spec: a rotation run over the credentials of a store
in stable order, halting on the first EncryptionError (§4.5). -/
def rotateRun (reg : WrapperRegistry) :
    List StoredCredential → Except EngineError (List StoredCredential)
  | [] => .ok []
  | c :: rest =>
    match rotateCredential reg c with
    | .error e => .error e
    | .ok c' =>
      match rotateRun reg rest with
      | .error e => .error e
      | .ok rest' => .ok (c' :: rest')

/-- After rotation a named field keeps its name, reports the current key id,
and opens to the same plaintext as before the run. -/
def fieldRotated (reg : WrapperRegistry) (c : StoredCredential)
    (old new : String × SealedField) : Prop :=
  new.1 = old.1 ∧ new.2.keyId = reg.currentKeyId ∧
  openField reg new.2 (credAad c old.1) = openField reg old.2 (credAad c old.1)

/-- After rotation a credential keeps its identity and every one of its
sealed fields is rotated in place. -/
def credRotated (reg : WrapperRegistry) (old new : StoredCredential) : Prop :=
  new.public_id = old.public_id ∧ new.store_id = old.store_id ∧
  List.Forall₂ (fieldRotated reg old) old.fields new.fields

/-- A concrete wrapper registry for witnesses: identity encryption bound to
key k2, decryption accepting any key id, identity keyed HMAC. -/
def demoRegistry : WrapperRegistry where
  encrypt p _ := (p, "k2")
  decrypt ct _ _ := .ok ct
  currentKeyId := "k2"
  hmacKeyed _ p := p
  decrypt_encrypt _ _ := rfl
  encrypt_keyId _ _ := rfl
  hmacKeyed_inj _ _ _ h := h

/-- A concrete well-formed UsernamePasswordCredential for witnesses. -/
def demoUPCred : UsernamePasswordCredential :=
  { public_id := "cu1", create_time := 0, update_time := 0, name := none,
    description := none, store_id := "s1", version := 1, username := "svc",
    password := [], ct_password := [1], password_hmac := [1], key_id := "k2" }

/-- A stored credential holding one field sealed under the stale key k1. -/
def demoStoredCred : StoredCredential :=
  { public_id := "cred1", store_id := "s1",
    fields := [("password", ⟨[5, 6], [5, 6], "k1"⟩)] }

/-- demoStoredCred after rotation to the current key k2. -/
def demoRotatedCred : StoredCredential :=
  { public_id := "cred1", store_id := "s1",
    fields := [("password", ⟨[5, 6], [5, 6], "k2"⟩)] }

/-- The base64 standard-encoding alphabet of RFC 4648, as used by Go's
encoding/base64 StdEncoding in DevKeyGeneration. -/
def base64AlphabetChars : List Char :=
  [ 'A', 'B', 'C', 'D', 'E', 'F', 'G', 'H', 'I', 'J', 'K', 'L', 'M',
    'N', 'O', 'P', 'Q', 'R', 'S', 'T', 'U', 'V', 'W', 'X', 'Y', 'Z',
    'a', 'b', 'c', 'd', 'e', 'f', 'g', 'h', 'i', 'j', 'k', 'l', 'm',
    'n', 'o', 'p', 'q', 'r', 's', 't', 'u', 'v', 'w', 'x', 'y', 'z',
    '0', '1', '2', '3', '4', '5', '6', '7', '8', '9', '+', '/' ]

/-- Character of the base64 alphabet at a 6-bit index. -/
def b64Char (n : Nat) : Char := base64AlphabetChars.getD n 'A'

/-- Go's base64.StdEncoding.EncodeToString over bytes (naturals below 256),
three input bytes per four output characters, padded with `=`. -/
def base64EncodeChunks : List Nat → List Char
  | b1 :: b2 :: b3 :: rest =>
    b64Char (b1 / 4) :: b64Char (b1 % 4 * 16 + b2 / 16) ::
      b64Char (b2 % 16 * 4 + b3 / 64) :: b64Char (b3 % 64) ::
      base64EncodeChunks rest
  | [b1, b2] =>
    [b64Char (b1 / 4), b64Char (b1 % 4 * 16 + b2 / 16), b64Char (b2 % 16 * 4), '=']
  | [b1] => [b64Char (b1 / 4), b64Char (b1 % 4 * 16), '=', '=']
  | [] => []

/-- DevKeyGeneration of the config package, as a function of the 32 random
bytes it reads from rand.Reader: the base64 standard encoding of the bytes,
truncated to its first 32 characters. -/
def DevKeyGeneration (randBytes : List Nat) : List Char :=
  (base64EncodeChunks randBytes).take 32

/-- supportControllersRawConfig of the config package: returns
initial_upstreams or the deprecated controllers value, whichever is
populated, erring when both are.  Nil interface values are modelled as
`none`. -/
def supportControllersRawConfig {α : Type}
    (initialUpstreamsRaw controllersRaw : Option α) :
    Except String (Option α) :=
  if !initialUpstreamsRaw.isSome && controllersRaw.isSome then
    .ok controllersRaw
  else if initialUpstreamsRaw.isSome && controllersRaw.isSome then
    .error "both initial_upstreams and controllers fields are populated"
  else
    .ok initialUpstreamsRaw

/-- A listener block of the shared configuration: its purposes and address. -/
structure ListenerConfig where
  purpose : List String
  address : List Char
deriving DecidableEq

/-- The FindAddr loop of SetupControllerPublicClusterAddress: address of the
first listener with purpose cluster, empty when there is none. -/
def findClusterListenerAddr (ls : List ListenerConfig) : List Char :=
  match ls.find? (fun l => l.purpose.contains "cluster") with
  | some l => l.address
  | none => []

/-- Error cases of Go's net.SplitHostPort; the config code tests the error
text for "missing port", which matches exactly the missingPort case. -/
inductive AddrError
  | missingPort
  | tooManyColons
  | missingBracket
  | unexpectedOpenBracket
  | unexpectedCloseBracket
deriving DecidableEq

/-- Index of the last occurrence of a character. -/
def lastIndexOfChar (ch : Char) : List Char → Option Nat
  | [] => none
  | a :: rest =>
    match lastIndexOfChar ch rest with
    | some i => some (i + 1)
    | none => if a = ch then some 0 else none

/-- Index of the first occurrence of a character. -/
def indexOfChar (ch : Char) : List Char → Option Nat
  | [] => none
  | a :: rest => if a = ch then some 0 else (indexOfChar ch rest).map (· + 1)

/-- Go's net.SplitHostPort: the port starts after the last colon; a leading
bracket delimits an IPv6 host whose closing bracket must sit just before
that colon; stray colons and brackets are rejected. -/
def splitHostPort (hostPort : List Char) :
    Except AddrError (List Char × List Char) :=
  match lastIndexOfChar ':' hostPort with
  | none => .error .missingPort
  | some i =>
    if hostPort.headD ' ' = '[' then
      match indexOfChar ']' hostPort with
      | none => .error .missingBracket
      | some endIdx =>
        if endIdx + 1 = hostPort.length then .error .missingPort
        else if endIdx + 1 = i then
          if (hostPort.drop 1).contains '[' then .error .unexpectedOpenBracket
          else if (hostPort.drop (endIdx + 1)).contains ']' then
            .error .unexpectedCloseBracket
          else .ok ((hostPort.drop 1).take (endIdx - 1), hostPort.drop (i + 1))
        else
          if hostPort.getD (endIdx + 1) ' ' = ':' then .error .tooManyColons
          else .error .missingPort
    else
      if (hostPort.take i).contains ':' then .error .tooManyColons
      else if hostPort.contains '[' then .error .unexpectedOpenBracket
      else if hostPort.contains ']' then .error .unexpectedCloseBracket
      else .ok (hostPort.take i, hostPort.drop (i + 1))

/-- Go's net.JoinHostPort: brackets the host when it contains a colon. -/
def joinHostPort (host port : List Char) : List Char :=
  if host.contains ':' then '[' :: host ++ ']' :: ':' :: port
  else host ++ ':' :: port

/-- The default controller cluster port filled in by the config code. -/
def port9201 : List Char := ['9', '2', '0', '1']

/-- Address-resolution phase of SetupControllerPublicClusterAddress: the
flag value wins when non-empty; an empty result scans the listeners for a
cluster one; a non-empty value passes through parseutil.ParsePath and
listenerutil.ParseSingleIPTemplate, two external library calls modelled as
arbitrary transformation functions (a ParsePath ErrNotAUrl outcome leaves
the input unchanged and is ignored by the caller, so it is folded into
`.ok`). -/
def resolveClusterAddr
    (parsePath parseIPTemplate : List Char → Except String (List Char))
    (listeners : List ListenerConfig) (configuredAddr flagValue : List Char) :
    Except String (List Char) :=
  let addr := if flagValue ≠ [] then flagValue else configuredAddr
  if addr = [] then .ok (findClusterListenerAddr listeners)
  else
    match parsePath addr with
    | .error e => .error e
    | .ok a2 => parseIPTemplate a2

/-- Port-defaulting phase of SetupControllerPublicClusterAddress: split the
resolved address; when the split fails with a missing-port error, use the
whole address as host with port 9201; rejoin host and port. -/
def finalizeClusterAddr (addr : List Char) : Except String (List Char) :=
  match splitHostPort addr with
  | .ok (h, p) => .ok (joinHostPort h p)
  | .error .missingPort => .ok (joinHostPort addr port9201)
  | .error _ => .error "Error splitting public cluster address host/port"

/-- SetupControllerPublicClusterAddress of the config package, returning the
final Controller.PublicClusterAddr. -/
def SetupControllerPublicClusterAddress
    (parsePath parseIPTemplate : List Char → Except String (List Char))
    (listeners : List ListenerConfig) (configuredAddr flagValue : List Char) :
    Except String (List Char) :=
  match resolveClusterAddr parsePath parseIPTemplate listeners configuredAddr
      flagValue with
  | .error e => .error e
  | .ok a => finalizeClusterAddr a

/-! ## Theorems -/

/-- Opening a just-sealed field returns the plaintext (helper for the
round-trip and rotation theorems). -/
theorem openField_seal (reg : WrapperRegistry) (p : List Nat) (aad : Aad) :
    openField reg (sealField reg p aad) aad = .ok p := by
  simp only [openField, sealField]
  exact reg.decrypt_encrypt p aad

/-- C1: for every credential variant, the transient plaintext fields
(password, private_key, private_key_passphrase, object) are not among the
persisted fields -- the persisted field numbers are exactly the numbered
non-transient fields -- and the persisted representation of a record (which
is what any non-decrypting read returns) is independent of the transient
plaintext values. -/
theorem transient_fields_never_persisted :
    ((persistedFields usernamePasswordCredentialFields).map (·.number) =
        [1, 2, 3, 4, 5, 6, 7, 8, 10, 11, 12]
      ∧ "password" ∉ (persistedFields usernamePasswordCredentialFields).map (·.name))
  ∧ ((persistedFields sshPrivateKeyCredentialFields).map (·.number) =
        [1, 2, 3, 4, 5, 6, 7, 8, 10, 11, 12, 14, 15]
      ∧ "private_key" ∉ (persistedFields sshPrivateKeyCredentialFields).map (·.name)
      ∧ "private_key_passphrase" ∉
          (persistedFields sshPrivateKeyCredentialFields).map (·.name))
  ∧ ((persistedFields jsonCredentialFields).map (·.number) =
        [1, 2, 3, 4, 5, 6, 7, 9, 10, 11]
      ∧ "object" ∉ (persistedFields jsonCredentialFields).map (·.name))
  ∧ (∀ (c : UsernamePasswordCredential) (pw : List Nat),
      ({ c with password := pw }).persistedRepr = c.persistedRepr)
  ∧ (∀ (c : SshPrivateKeyCredential) (pk pp : List Nat),
      ({ c with private_key := pk, private_key_passphrase := pp }).persistedRepr =
        c.persistedRepr)
  ∧ (∀ (c : JsonCredential) (ob : List Nat),
      ({ c with object := ob }).persistedRepr = c.persistedRepr) :=
  ⟨⟨by decide, by decide⟩, ⟨by decide, by decide, by decide⟩, ⟨by decide, by decide⟩,
   fun _ _ => rfl, fun _ _ _ => rfl, fun _ _ => rfl⟩

/-- C2: the wire field names and numbers of the four persisted entities are
exactly those of the spec's external-interface table; in particular
UsernamePasswordCredential runs public_id=1 .. key_id=12 with ct_password=10
and password_hmac=11, and JsonCredential has object=8, object_encrypted=9,
object_hmac=10, key_id=11. -/
theorem wire_field_numbers_match_spec :
    credentialStoreFields.map wirePair = specCredentialStoreTable
  ∧ usernamePasswordCredentialFields.map wirePair = specUsernamePasswordTable
  ∧ sshPrivateKeyCredentialFields.map wirePair = specSshPrivateKeyTable
  ∧ jsonCredentialFields.map wirePair = specJsonTable :=
  ⟨rfl, rfl, rfl, rfl⟩

/-- C5: for every plaintext byte sequence p (including the empty one) and
every aad, opening a sealed field returns the original plaintext. -/
theorem open_seal_roundtrip (reg : WrapperRegistry) (p : List Nat) (aad : Aad) :
    openField reg (sealField reg p aad) aad = .ok p :=
  openField_seal reg p aad

/-- C3: with a record present, every mutation that succeeds (for any changed
fields) bumps the stored version by exactly one, and a mutation whose
supplied expected version differs from the stored version is rejected with
ConflictError, producing no updated store, so the record is unchanged. -/
theorem version_bump_and_conflict {α : Type}
    (store : List (String × VersionedRecord α)) (id : String)
    (expectedVersion : Nat) (changedFields : α → α) (r : VersionedRecord α)
    (hr : lookupRecord store id = some r) :
    (∀ store', updateRecord store id expectedVersion changedFields = .ok store' →
      expectedVersion = r.version ∧
        lookupRecord store' id = some ⟨r.version + 1, changedFields r.payload⟩)
  ∧ (expectedVersion ≠ r.version →
      updateRecord store id expectedVersion changedFields =
        .error .conflictError) := by
  constructor
  · intro store' hok
    simp only [updateRecord, hr] at hok
    by_cases hv : expectedVersion = r.version
    · rw [if_pos hv] at hok
      injection hok with hok
      subst hok
      refine ⟨hv, ?_⟩
      unfold lookupRecord
      rw [List.find?_map]
      have hcomp : ((fun e : String × VersionedRecord α => e.1 == id) ∘
          fun e : String × VersionedRecord α =>
            if e.1 == id then
              (e.1, (⟨r.version + 1, changedFields r.payload⟩ : VersionedRecord α))
            else e) =
          fun e : String × VersionedRecord α => e.1 == id := by
        funext e
        by_cases h : (e.1 == id) = true <;> simp [Function.comp, h]
      rw [hcomp]
      unfold lookupRecord at hr
      cases hfind : store.find? (fun e => e.1 == id) with
      | none => rw [hfind] at hr; cases hr
      | some e0 =>
        have hid0 := List.find?_some hfind
        simp only [beq_iff_eq] at hid0
        simp [hid0]
    · rw [if_neg hv] at hok
      cases hok
  · intro hne
    simp only [updateRecord, hr, if_neg hne]

/-- Demonstration store for the optimistic-concurrency witness. -/
def demoVersionStore : List (String × VersionedRecord Nat) := [("c1", ⟨3, 7⟩)]

/-- Witness for C3 at a concrete store: record c1 has version 3; supplying
expected version 4 is rejected with ConflictError. -/
theorem version_bump_and_conflict_witness :
    lookupRecord demoVersionStore "c1" = some ⟨3, 7⟩ ∧
    updateRecord demoVersionStore "c1" 4 (fun x => x + 1) =
      .error .conflictError :=
  ⟨by decide,
   (version_bump_and_conflict demoVersionStore "c1" 4 (fun x => x + 1) ⟨3, 7⟩
      (by decide)).2 (by decide)⟩

/-- A credential matching the searched public id is the one `find?` found,
given globally unique public ids. -/
theorem eq_found_of_id_eq {creds : List CredMeta} {c a : CredMeta} {id : String}
    (hIds : IdsUnique creds) (hcmem : c ∈ creds) (hcid : c.public_id = id)
    (ha : a ∈ creds) (haid : a.public_id = id) : a = c := by
  by_contra hac
  exact List.Pairwise.forall (fun _ _ h => Ne.symm h) hIds ha hcmem hac
    (haid.trans hcid.symm)

/-- Renaming one credential to a name no other credential of the same store
carries preserves per-store name uniqueness. -/
theorem renameMap_preserves_unique (creds : List CredMeta) (id : String)
    (nn : Option String) (c : CredMeta) (hcmem : c ∈ creds)
    (hcid : c.public_id = id) (hIds : IdsUnique creds)
    (hU : NamesUniquePerStore creds)
    (hguard : ∀ n, nn = some n → ∀ c2 ∈ creds,
      ¬(c2.public_id ≠ id ∧ c2.store_id = c.store_id ∧ c2.name = some n)) :
    NamesUniquePerStore (creds.map (fun c2 =>
      if c2.public_id == id then { c2 with name := nn } else c2)) := by
  unfold NamesUniquePerStore
  rw [List.pairwise_map]
  refine List.Pairwise.imp_of_mem ?_ ((hIds.and hU) :
    creds.Pairwise fun a b =>
      a.public_id ≠ b.public_id ∧
        (a.store_id = b.store_id → a.name = b.name → a.name = none))
  intro a b ha hb hab
  obtain ⟨hne, hR⟩ := hab
  by_cases haid : (a.public_id == id) = true
  · by_cases hbid : (b.public_id == id) = true
    · exact absurd ((beq_iff_eq.mp haid).trans (beq_iff_eq.mp hbid).symm) hne
    · simp only [haid, hbid, if_pos, if_neg, Bool.false_eq_true, not_false_iff,
        ite_true, ite_false]
      cases nn with
      | none => intro _ _; rfl
      | some n =>
        intro hs hn
        exfalso
        have hbneid : b.public_id ≠ id := by
          intro h; exact hbid (beq_iff_eq.mpr h)
        have hac : a = c :=
          eq_found_of_id_eq hIds hcmem hcid ha (beq_iff_eq.mp haid)
        exact hguard n rfl b hb
          ⟨hbneid, by rw [← hs, hac], hn.symm⟩
  · by_cases hbid : (b.public_id == id) = true
    · simp only [haid, hbid, Bool.false_eq_true, not_false_iff, ite_true,
        ite_false]
      cases nn with
      | none => intro _ hn; exact hn
      | some n =>
        intro hs hn
        exfalso
        have haneid : a.public_id ≠ id := by
          intro h; exact haid (beq_iff_eq.mpr h)
        have hbc : b = c :=
          eq_found_of_id_eq hIds hcmem hcid hb (beq_iff_eq.mp hbid)
        exact hguard n rfl a ha ⟨haneid, by rw [hs, hbc], hn⟩
    · simpa only [haid, hbid, Bool.false_eq_true, not_false_iff, ite_false]
      using hR

/-- C4: a set credential name is unique within the owning store's scope --
creating a credential whose set name a credential of the same store already
carries fails with DuplicateNameError, renaming a credential to a set name
another credential of the same store carries fails with DuplicateNameError,
and both successful creation and successful renaming preserve per-store name
uniqueness. -/
theorem name_unique_within_store :
    (∀ (creds : List CredMeta) (nc : CredMeta) (n : String),
      nc.name = some n →
      (∃ c ∈ creds, c.store_id = nc.store_id ∧ c.name = some n) →
      createCred creds nc = .error .duplicateNameError)
  ∧ (∀ (creds : List CredMeta) (nc : CredMeta) (creds' : List CredMeta),
      NamesUniquePerStore creds → createCred creds nc = .ok creds' →
      NamesUniquePerStore creds')
  ∧ (∀ (creds : List CredMeta) (id : String) (n : String) (c : CredMeta),
      creds.find? (fun c2 => c2.public_id == id) = some c →
      (∃ c2 ∈ creds, c2.public_id ≠ id ∧ c2.store_id = c.store_id ∧
        c2.name = some n) →
      renameCred creds id (some n) = .error .duplicateNameError)
  ∧ (∀ (creds : List CredMeta) (id : String) (nn : Option String)
      (creds' : List CredMeta),
      IdsUnique creds → NamesUniquePerStore creds →
      renameCred creds id nn = .ok creds' → NamesUniquePerStore creds') := by
  refine ⟨?_, ?_, ?_, ?_⟩
  · intro creds nc n hn hex
    obtain ⟨c, hc, hsid, hname⟩ := hex
    have htaken : nameTakenInStore creds nc.store_id n = true := by
      unfold nameTakenInStore
      rw [List.any_eq_true]
      exact ⟨c, hc, by simp [hsid, hname]⟩
    simp [createCred, hn, htaken]
  · intro creds nc creds' hU hok
    cases hnc : nc.name with
    | none =>
      simp only [createCred, hnc] at hok
      injection hok with hok
      subst hok
      unfold NamesUniquePerStore
      rw [List.pairwise_cons]
      exact ⟨fun c _ _ _ => hnc, hU⟩
    | some n =>
      simp only [createCred, hnc] at hok
      by_cases htaken : nameTakenInStore creds nc.store_id n = true
      · rw [if_pos htaken] at hok; cases hok
      · rw [if_neg htaken] at hok
        injection hok with hok
        subst hok
        unfold NamesUniquePerStore
        rw [List.pairwise_cons]
        refine ⟨?_, hU⟩
        intro c hc hs hname
        exfalso
        apply htaken
        unfold nameTakenInStore
        rw [List.any_eq_true]
        refine ⟨c, hc, ?_⟩
        rw [← hname, hnc, ← hs]
        simp
  · intro creds id n c hfind hex
    obtain ⟨c2, hc2, hne, hsid, hname⟩ := hex
    have hany : creds.any (fun c2 =>
        c2.public_id != id && c2.store_id == c.store_id &&
          c2.name == some n) = true := by
      rw [List.any_eq_true]
      exact ⟨c2, hc2, by simp [bne_iff_ne, hne, hsid, hname]⟩
    simp [renameCred, hfind, hany]
  · intro creds id nn creds' hIds hU hok
    cases hfind : creds.find? (fun c2 => c2.public_id == id) with
    | none =>
      simp only [renameCred, hfind] at hok
      cases hok
    | some c =>
      have hcid0 := List.find?_some hfind
      simp only [beq_iff_eq] at hcid0
      have hcmem : c ∈ creds := List.mem_of_find?_eq_some hfind
      cases nn with
      | none =>
        simp only [renameCred, hfind] at hok
        injection hok with hok
        subst hok
        exact renameMap_preserves_unique creds id none c hcmem hcid0 hIds hU
          (fun n h => by cases h)
      | some n =>
        simp only [renameCred, hfind] at hok
        by_cases hany : creds.any (fun c2 =>
            c2.public_id != id && c2.store_id == c.store_id &&
              c2.name == some n) = true
        · rw [if_pos hany] at hok; cases hok
        · rw [if_neg hany] at hok
          injection hok with hok
          subst hok
          refine renameMap_preserves_unique creds id (some n) c hcmem hcid0
            hIds hU ?_
          intro n' hn' c2 hc2 hbad
          obtain rfl : n' = n := by injection hn' with h; exact h.symm
          obtain ⟨hne2, hs2, hm2⟩ := hbad
          apply hany
          rw [List.any_eq_true]
          exact ⟨c2, hc2, by simp [bne_iff_ne, hne2, hs2, hm2]⟩

/-- Witness for C4 at concrete stores: a clashing create and a clashing
rename are rejected with DuplicateNameError, and a successful create yields
a store whose set names stay unique per store. -/
theorem name_unique_within_store_witness :
    createCred [⟨"c1", "s1", some "n"⟩] ⟨"c2", "s1", some "n"⟩ =
      .error .duplicateNameError
  ∧ renameCred [⟨"c1", "s1", some "n"⟩, ⟨"c2", "s1", some "m"⟩] "c2"
      (some "n") = .error .duplicateNameError
  ∧ NamesUniquePerStore [⟨"c2", "s1", some "m"⟩, ⟨"c1", "s1", some "n"⟩] :=
  ⟨name_unique_within_store.1 [⟨"c1", "s1", some "n"⟩] ⟨"c2", "s1", some "n"⟩
      "n" rfl ⟨⟨"c1", "s1", some "n"⟩, by simp, by simp⟩,
   name_unique_within_store.2.2.1 [⟨"c1", "s1", some "n"⟩, ⟨"c2", "s1", some "m"⟩]
      "c2" "n" ⟨"c2", "s1", some "m"⟩ (by decide)
      ⟨⟨"c1", "s1", some "n"⟩, by simp, by simp⟩,
   name_unique_within_store.2.1 [⟨"c1", "s1", some "n"⟩] ⟨"c2", "s1", some "m"⟩
      [⟨"c2", "s1", some "m"⟩, ⟨"c1", "s1", some "n"⟩]
      (by unfold NamesUniquePerStore; simp) rfl⟩

/-- C6: an update whose changed fields contain only the password leaves the
username (and owning store) and the key_id unchanged and changes
ct_password and password_hmac; UsernamePasswordCredential has no further
secret field, so every untouched secret field is byte-for-byte identical. -/
theorem update_password_frame (reg : WrapperRegistry)
    (c : UsernamePasswordCredential) (oldPw newPw : List Nat)
    (hwf : UPWellFormed reg c oldPw) (hne : newPw ≠ oldPw) :
    (updatePasswordOnly reg c newPw).username = c.username
  ∧ (updatePasswordOnly reg c newPw).store_id = c.store_id
  ∧ (updatePasswordOnly reg c newPw).key_id = c.key_id
  ∧ (updatePasswordOnly reg c newPw).ct_password ≠ c.ct_password
  ∧ (updatePasswordOnly reg c newPw).password_hmac ≠ c.password_hmac := by
  obtain ⟨hct, hhm, hkid⟩ := hwf
  refine ⟨rfl, rfl, ?_, ?_, ?_⟩
  · show (sealField reg newPw (upPasswordAad c)).keyId = c.key_id
    rw [hkid]
    show (reg.encrypt newPw (upPasswordAad c)).2 =
      (reg.encrypt oldPw (upPasswordAad c)).2
    rw [reg.encrypt_keyId, reg.encrypt_keyId]
  · show (sealField reg newPw (upPasswordAad c)).ciphertext ≠ c.ct_password
    rw [hct]
    intro heq
    apply hne
    have h1 := reg.decrypt_encrypt newPw (upPasswordAad c)
    have h2 := reg.decrypt_encrypt oldPw (upPasswordAad c)
    rw [reg.encrypt_keyId] at h1 h2
    simp only [sealField] at heq
    rw [heq] at h1
    have h3 := h1.symm.trans h2
    injection h3
  · show (sealField reg newPw (upPasswordAad c)).hmac ≠ c.password_hmac
    rw [hhm]
    intro heq
    apply hne
    simp only [sealField] at heq
    rw [reg.encrypt_keyId, reg.encrypt_keyId] at heq
    exact reg.hmacKeyed_inj _ _ _ heq

/-- Witness for C6 at a concrete registry and record: updating the password
from [1] to [2] keeps username, store and key id and changes ciphertext and
HMAC. -/
theorem update_password_frame_witness :
    UPWellFormed demoRegistry demoUPCred [1]
  ∧ ((updatePasswordOnly demoRegistry demoUPCred [2]).username =
        demoUPCred.username
    ∧ (updatePasswordOnly demoRegistry demoUPCred [2]).store_id =
        demoUPCred.store_id
    ∧ (updatePasswordOnly demoRegistry demoUPCred [2]).key_id =
        demoUPCred.key_id
    ∧ (updatePasswordOnly demoRegistry demoUPCred [2]).ct_password ≠
        demoUPCred.ct_password
    ∧ (updatePasswordOnly demoRegistry demoUPCred [2]).password_hmac ≠
        demoUPCred.password_hmac) :=
  ⟨⟨rfl, rfl, rfl⟩,
   update_password_frame demoRegistry demoUPCred [1] [2] ⟨rfl, rfl, rfl⟩
     (by decide)⟩

/-- Rotating one field yields the current key id and an unchanged opened
plaintext. -/
theorem rotateField_ok (reg : WrapperRegistry) (aad : Aad) (f f' : SealedField)
    (h : rotateField reg aad f = .ok f') :
    f'.keyId = reg.currentKeyId ∧
    openField reg f' aad = openField reg f aad := by
  unfold rotateField at h
  by_cases hk : f.keyId = reg.currentKeyId
  · rw [if_pos hk] at h
    injection h with h
    subst h
    exact ⟨hk, rfl⟩
  · rw [if_neg hk] at h
    cases hopen : openField reg f aad with
    | error e => simp only [hopen] at h; cases h
    | ok p =>
      simp only [hopen] at h
      injection h with h
      subst h
      refine ⟨reg.encrypt_keyId p aad, ?_⟩
      rw [openField_seal reg p aad]

/-- Rotating a field list relates it to the result field by field. -/
theorem rotateFields_ok (reg : WrapperRegistry) (c : StoredCredential) :
    ∀ fs fs', rotateFields reg c fs = .ok fs' →
      List.Forall₂ (fieldRotated reg c) fs fs' := by
  intro fs
  induction fs with
  | nil =>
    intro fs' h
    injection h with h
    subst h
    exact List.Forall₂.nil
  | cons nf rest ih =>
    intro fs' h
    obtain ⟨n, f⟩ := nf
    unfold rotateFields at h
    cases hrf : rotateField reg (credAad c n) f with
    | error e => simp only [hrf] at h; cases h
    | ok f' =>
      simp only [hrf] at h
      cases hrest : rotateFields reg c rest with
      | error e => simp only [hrest] at h; cases h
      | ok rest' =>
        simp only [hrest] at h
        injection h with h
        subst h
        obtain ⟨hk, hop⟩ := rotateField_ok reg (credAad c n) f f' hrf
        exact List.Forall₂.cons ⟨rfl, hk, hop⟩ (ih rest' hrest)

/-- Rotating one credential keeps its identity and rotates its fields. -/
theorem rotateCredential_ok (reg : WrapperRegistry) (c c' : StoredCredential)
    (h : rotateCredential reg c = .ok c') : credRotated reg c c' := by
  unfold rotateCredential at h
  cases hfs : rotateFields reg c c.fields with
  | error e => simp only [hfs] at h; cases h
  | ok fs =>
    simp only [hfs] at h
    injection h with h
    subst h
    exact ⟨rfl, rfl, rotateFields_ok reg c c.fields fs hfs⟩

/-- C7: when a rotation run completes with no cancellation, every credential
keeps its identity, every sealed field of every credential reports the
registry's current key id, and opening every field returns the same
plaintext as before the run. -/
theorem rotation_completeness (reg : WrapperRegistry)
    (creds creds' : List StoredCredential)
    (h : rotateRun reg creds = .ok creds') :
    List.Forall₂ (credRotated reg) creds creds' := by
  induction creds generalizing creds' with
  | nil =>
    injection h with h
    subst h
    exact List.Forall₂.nil
  | cons c rest ih =>
    unfold rotateRun at h
    cases hc : rotateCredential reg c with
    | error e => simp only [hc] at h; cases h
    | ok c' =>
      simp only [hc] at h
      cases hrest : rotateRun reg rest with
      | error e => simp only [hrest] at h; cases h
      | ok rest' =>
        simp only [hrest] at h
        injection h with h
        subst h
        exact List.Forall₂.cons (rotateCredential_ok reg c c' hc)
          (ih rest' hrest)

/-- Witness for C7 at a concrete registry and store: a field sealed under
the stale key k1 is rotated to the current key k2 and still opens to the
same plaintext. -/
theorem rotation_completeness_witness :
    rotateRun demoRegistry [demoStoredCred] = .ok [demoRotatedCred]
  ∧ List.Forall₂ (credRotated demoRegistry) [demoStoredCred]
      [demoRotatedCred] :=
  ⟨rfl,
   rotation_completeness demoRegistry [demoStoredCred] [demoRotatedCred] rfl⟩

/-- Characters at 6-bit indices belong to the base64 alphabet. -/
theorem b64Char_mem (n : Nat) (h : n < 64) : b64Char n ∈ base64AlphabetChars := by
  have hlen : n < base64AlphabetChars.length := by
    have h64 : base64AlphabetChars.length = 64 := by decide
    omega
  unfold b64Char
  rw [List.getD_eq_getElem?_getD, List.getElem?_eq_getElem hlen, Option.getD_some]
  exact List.getElem_mem hlen

/-- Length of the base64 encoding: four characters per started three-byte
chunk. -/
theorem base64EncodeChunks_length (bs : List Nat) :
    (base64EncodeChunks bs).length = 4 * ((bs.length + 2) / 3) := by
  induction bs using base64EncodeChunks.induct with
  | case1 b1 b2 b3 rest ih =>
    simp only [base64EncodeChunks, List.length_cons, ih]
    omega
  | case2 b1 b2 =>
    simp only [base64EncodeChunks, List.length_cons, List.length_nil]
  | case3 b1 =>
    simp only [base64EncodeChunks, List.length_cons, List.length_nil]
  | case4 =>
    simp only [base64EncodeChunks, List.length_nil]

/-- The base64 encoding of a byte list whose length is a multiple of three
distributes over append. -/
theorem base64EncodeChunks_append (bs1 bs2 : List Nat)
    (h : bs1.length % 3 = 0) :
    base64EncodeChunks (bs1 ++ bs2) =
      base64EncodeChunks bs1 ++ base64EncodeChunks bs2 := by
  induction bs1 using base64EncodeChunks.induct with
  | case1 b1 b2 b3 rest ih =>
    have hrest : rest.length % 3 = 0 := by
      simp only [List.length_cons] at h
      omega
    simp [base64EncodeChunks, ih hrest]
  | case2 b1 b2 => simp at h
  | case3 b1 => simp at h
  | case4 => simp [base64EncodeChunks]

/-- Every character of the base64 encoding of a byte list whose length is a
multiple of three lies in the alphabet (no padding is emitted). -/
theorem base64EncodeChunks_mem_alphabet :
    ∀ bs : List Nat, bs.length % 3 = 0 → (∀ b ∈ bs, b < 256) →
      ∀ ch ∈ base64EncodeChunks bs, ch ∈ base64AlphabetChars := by
  intro bs
  induction bs using base64EncodeChunks.induct with
  | case1 b1 b2 b3 rest ih =>
    intro h3 hb ch hch
    have hb1 : b1 < 256 := hb b1 (by simp)
    have hb2 : b2 < 256 := hb b2 (by simp)
    have hb3 : b3 < 256 := hb b3 (by simp)
    simp only [base64EncodeChunks, List.mem_cons] at hch
    rcases hch with h | h | h | h | h
    · rw [h]; exact b64Char_mem _ (by omega)
    · rw [h]; exact b64Char_mem _ (by omega)
    · rw [h]; exact b64Char_mem _ (by omega)
    · rw [h]; exact b64Char_mem _ (by omega)
    · refine ih ?_ ?_ ch h
      · simp only [List.length_cons] at h3
        omega
      · intro b hbm
        exact hb b (by simp [hbm])
  | case2 b1 b2 => intro h3 _ _ _; simp at h3
  | case3 b1 => intro h3 _ _ _; simp at h3
  | case4 => intro _ _ ch hch; simp [base64EncodeChunks] at hch

/-- C8: DevKeyGeneration, applied to the 32 random bytes it draws, returns
exactly 32 characters, all from the base64 standard-encoding alphabet (the
44-character encoding is truncated before any padding). -/
theorem devKeyGeneration_32_alphabet (bs : List Nat) (hlen : bs.length = 32)
    (hb : ∀ b ∈ bs, b < 256) :
    (DevKeyGeneration bs).length = 32 ∧
    ∀ ch ∈ DevKeyGeneration bs, ch ∈ base64AlphabetChars := by
  have htl : (bs.take 30).length = 30 := by
    rw [List.length_take, hlen]
    decide
  have hmod : (bs.take 30).length % 3 = 0 := by rw [htl]
  constructor
  · unfold DevKeyGeneration
    rw [List.length_take, base64EncodeChunks_length, hlen]
    decide
  · intro ch hch
    unfold DevKeyGeneration at hch
    rw [← List.take_append_drop 30 bs] at hch
    rw [base64EncodeChunks_append _ _ hmod] at hch
    have h30 : 32 ≤ (base64EncodeChunks (bs.take 30)).length := by
      rw [base64EncodeChunks_length, htl]
      decide
    rw [List.take_append_of_le_length h30] at hch
    exact base64EncodeChunks_mem_alphabet (bs.take 30) hmod
      (fun b hbm => hb b (List.take_subset 30 bs hbm)) ch
      (List.mem_of_mem_take hch)

/-- Witness for C8 at a concrete byte list: 32 zero bytes produce a
32-character key from the alphabet. -/
theorem devKeyGeneration_witness :
    (List.replicate 32 (0 : Nat)).length = 32
  ∧ ((DevKeyGeneration (List.replicate 32 0)).length = 32
     ∧ ∀ ch ∈ DevKeyGeneration (List.replicate 32 0),
        ch ∈ base64AlphabetChars) :=
  ⟨by decide,
   devKeyGeneration_32_alphabet (List.replicate 32 0) (by decide) (by decide)⟩

/-- C9: supportControllersRawConfig errs exactly when both
initial_upstreams and the deprecated controllers value are populated; with
exactly one populated it returns that one, and with neither it returns
nil. -/
theorem supportControllersRawConfig_spec {α : Type} (i c : Option α) :
    ((∃ msg, supportControllersRawConfig i c = .error msg) ↔
      (i.isSome = true ∧ c.isSome = true))
  ∧ (i.isSome = true → c = none → supportControllersRawConfig i c = .ok i)
  ∧ (i = none → c.isSome = true → supportControllersRawConfig i c = .ok c)
  ∧ (i = none → c = none → supportControllersRawConfig i c = .ok none) := by
  cases i <;> cases c <;> simp [supportControllersRawConfig]

/-- Witness for C9 at concrete values: both populated errs; each single
population passes through; neither yields nil. -/
theorem supportControllersRawConfig_witness :
    (∃ msg, supportControllersRawConfig (some 1) (some 2) = .error msg)
  ∧ supportControllersRawConfig (some 1) (none : Option Nat) = .ok (some 1)
  ∧ supportControllersRawConfig (none : Option Nat) (some 2) = .ok (some 2)
  ∧ supportControllersRawConfig (none : Option Nat) (none : Option Nat) =
      .ok none :=
  ⟨(supportControllersRawConfig_spec (some 1) (some 2)).1.mpr ⟨rfl, rfl⟩,
   (supportControllersRawConfig_spec (some 1) none).2.1 rfl rfl,
   (supportControllersRawConfig_spec none (some 2)).2.2.1 rfl rfl,
   (supportControllersRawConfig_spec (none : Option Nat) none).2.2.2 rfl rfl⟩

/-- C10: whenever SetupControllerPublicClusterAddress returns without
error, the result joins a host and a port, where either the resolved
address split into exactly that host and port, or the split reported a
missing port and the default port 9201 was filled in with the whole
resolved address as host. -/
theorem setup_public_cluster_addr_port
    (parsePath parseIPTemplate : List Char → Except String (List Char))
    (listeners : List ListenerConfig) (configuredAddr flagValue : List Char)
    (result : List Char)
    (h : SetupControllerPublicClusterAddress parsePath parseIPTemplate
      listeners configuredAddr flagValue = .ok result) :
    ∃ a host port,
      resolveClusterAddr parsePath parseIPTemplate listeners configuredAddr
          flagValue = .ok a
      ∧ result = joinHostPort host port
      ∧ (splitHostPort a = .ok (host, port)
         ∨ (splitHostPort a = .error .missingPort ∧ host = a ∧
            port = port9201)) := by
  unfold SetupControllerPublicClusterAddress at h
  cases hres : resolveClusterAddr parsePath parseIPTemplate listeners
      configuredAddr flagValue with
  | error e => simp only [hres] at h; cases h
  | ok a =>
    simp only [hres] at h
    refine ⟨a, ?_⟩
    unfold finalizeClusterAddr at h
    cases hsplit : splitHostPort a with
    | ok hp =>
      obtain ⟨ho, po⟩ := hp
      simp only [hsplit] at h
      injection h with h
      exact ⟨ho, po, rfl, h.symm, Or.inl rfl⟩
    | error e =>
      cases e with
      | missingPort =>
        simp only [hsplit] at h
        injection h with h
        exact ⟨a, port9201, rfl, h.symm, Or.inr ⟨rfl, rfl, rfl⟩⟩
      | tooManyColons => simp only [hsplit] at h; cases h
      | missingBracket => simp only [hsplit] at h; cases h
      | unexpectedOpenBracket => simp only [hsplit] at h; cases h
      | unexpectedCloseBracket => simp only [hsplit] at h; cases h

/-- Witness for C10 at a concrete flag value without a port: the default
port 9201 is appended. -/
theorem setup_public_cluster_addr_port_witness :
    SetupControllerPublicClusterAddress (fun s => .ok s) (fun s => .ok s)
      [] [] ("10.0.0.1".toList) = .ok ("10.0.0.1:9201".toList)
  ∧ ∃ a host port,
      resolveClusterAddr (fun s => .ok s) (fun s => .ok s) [] []
          ("10.0.0.1".toList) = .ok a
      ∧ ("10.0.0.1:9201".toList) = joinHostPort host port
      ∧ (splitHostPort a = .ok (host, port)
         ∨ (splitHostPort a = .error .missingPort ∧ host = a ∧
            port = port9201)) :=
  ⟨rfl,
   setup_public_cluster_addr_port (fun s => .ok s) (fun s => .ok s) [] []
     ("10.0.0.1".toList) ("10.0.0.1:9201".toList) rfl⟩

end Boundary
